import Mathlib

/-!
Shallow embedding of the core of the rust-hdbconnect driver, for checking
its natural-language specification.  Bytes are modelled as `Nat` (values
below 256 on real wire data), Rust `Vec<u8>` as `List Nat`, machine
integers as `Int` with explicit two's-complement wrap where overflow can
occur, fallible Rust functions as `Except`.  A Rust `panic!` / failing
`assert!` is modelled as the distinguished outcome `Failure.panicked`,
kept apart from returned `HdbError` values.
-/

namespace Hdb

/-- Severity of a server error (protocol/parts/server_error.rs;
modelled from the spec: the file itself is not under src). -/
inductive Severity where
  | warning
  | error
  | fatal
deriving DecidableEq, Repr

/-- A server error as carried in an Error part
(spec section 4.10: code, severity, position, sqlstate, message). -/
structure ServerError where
  code : Int
  position : Int
  severity : Severity
  sqlstate : String
  message : String
deriving DecidableEq, Repr

/-- Per-row outcome of a batched execute
(protocol/parts/execution_result.rs, modelled from the spec glossary:
Success(rowcount), SuccessNoInfo, or Failure(optional server error)). -/
inductive ExecutionResult where
  | success (rowcount : Nat)
  | successNoInfo
  | failure (e : Option ServerError)
deriving DecidableEq, Repr

/-- The subset of hdb_error.rs HdbError constructors that the embedded
functions can produce. -/
inductive HdbError where
  | usage (msg : String)
  | usageDetailed (msg : String)
  | implErr (msg : String)
  | implDetailed (msg : String)
  | dbError (e : ServerError)
  | multipleDbErrors (es : List ServerError)
  | executionResults (rs : List ExecutionResult)
  | sessionClosingTransactionError
  | cesu8Decoding
  | tcp (msg : String)
deriving DecidableEq, Repr

/-- Outcome of a fallible embedded computation: either a returned
HdbError, or a Rust panic (failing assert / unreachable / index out of
bounds), which never surfaces as an `HdbError`. -/
inductive Failure where
  | hdb (e : HdbError)
  | panicked
deriving DecidableEq, Repr

/-! ## C10: ConnectParamsBuilder (src/stream/connect_params.rs) -/

/-- The builder state (stream/connect_params.rs, struct
ConnectParamsBuilder). -/
structure ConnectParamsBuilder where
  hostname : Option String
  port : Option Nat
  dbuser : Option String
  password : Option String
  clientlocale : Option String
  options : List (String × String)
deriving DecidableEq, Repr

/-- ConnectParamsBuilder::new. -/
def ConnectParamsBuilder.new : ConnectParamsBuilder :=
  ⟨none, none, none, none, none, []⟩

/-- The built parameter set (stream/connect_params.rs, struct
ConnectParams). -/
structure ConnectParams where
  host : String
  port : Nat
  dbuser : String
  password : String
  clientlocale : Option String
  options : List (String × String)
deriving DecidableEq, Repr

/-- Modelled from the spec: `url::Host::parse` belongs to the external
url crate ("URL parsing is treated as an abstract connect-params
collaborator"); the spec types the host simply as a string, so the
collaborator is modelled as accepting every hostname string. -/
def host_parse (s : String) : Option String :=
  some s

/-- ConnectParamsBuilder::dbuser (stream/connect_params.rs lines
176-179). -/
def ConnectParamsBuilder.set_dbuser (b : ConnectParamsBuilder)
    (dbuser : String) : ConnectParamsBuilder :=
  { b with dbuser := some dbuser }

/-- ConnectParamsBuilder::password (stream/connect_params.rs lines
182-185). -/
def ConnectParamsBuilder.set_password (b : ConnectParamsBuilder)
    (pw : String) : ConnectParamsBuilder :=
  { b with password := some pw }

/-- ConnectParamsBuilder::build (stream/connect_params.rs lines
210-237).  `build` takes `&mut self`; the returned builder is the state
the call leaves behind.  `self.dbuser.take()`, `self.password.take()`,
`self.clientlocale.take()` and `mem::replace(&mut self.options, vec![])`
move the respective fields out of the builder; field initializers run in
source order, so an early error return keeps the mutations made so far. -/
def ConnectParamsBuilder.build (b : ConnectParamsBuilder) :
    Except HdbError ConnectParams × ConnectParamsBuilder :=
  match b.hostname with
  | none => (.error (.usage "host is missing"), b)
  | some s =>
    match host_parse s with
    | none => (.error (.usage "bad host"), b)
    | some host =>
      match b.port with
      | none => (.error (.usage "port is missing"), b)
      | some port =>
        match b.dbuser with
        | none => (.error (.usage "dbuser is missing"), b)
        | some dbuser =>
          let b := { b with dbuser := none }
          match b.password with
          | none => (.error (.usage "password is missing"), b)
          | some password =>
            let b := { b with password := none }
            let clientlocale := b.clientlocale
            let b := { b with clientlocale := none }
            let options := b.options
            let b := { b with options := [] }
            (.ok ⟨host, port, dbuser, password, clientlocale, options⟩, b)

/-! ## Connection core (src/conn/connection_core.rs): C2, C4, C7 -/

/-- StatementContext payload, reduced to the fields
`evaluate_statement_context` reads (statement_sequence_info and the
three server-usage counters). -/
structure StatementContext where
  statementSequenceInfo : Option Int
  serverProcessingTime : Nat
  serverCpuTime : Nat
  serverMemoryUsage : Nat
deriving DecidableEq, Repr

/-- Modelled from the spec: TransactionFlags
(protocol/parts/transactionflags.rs is not under src); the only effect
the connection core reads from it is whether the server signalled that
the session must terminate (spec section 7,
SessionClosingTransaction). -/
structure TransactionFlags where
  sessionClosing : Bool
deriving DecidableEq, Repr

/-- Server usage counters (protocol/server_usage.rs, reduced to the
three counters updated by `evaluate_statement_context`). -/
structure ServerUsage where
  procTime : Nat
  cpuTime : Nat
  memUsage : Nat
deriving DecidableEq, Repr

/-- The part kinds that `ConnectionCore::handle_db_error` inspects; all
remaining kinds fall into `other` and are warned about and skipped. -/
inductive Part where
  | error (es : List ServerError)
  | statementContext (ctx : StatementContext)
  | transactionFlags (tf : TransactionFlags)
  | executionResult (rs : List ExecutionResult)
  | other (kind : Nat)
deriving DecidableEq, Repr

/-- Discriminator: is this part a TransactionFlags part? -/
def Part.isTf : Part → Bool
  | .transactionFlags _ => true
  | _ => false

/-- Discriminator: is this part an ExecutionResult part? -/
def Part.isExec : Part → Bool
  | .executionResult _ => true
  | _ => false

/-- Discriminator: is this execution result a `Failure` placeholder? -/
def ExecutionResult.isFailure : ExecutionResult → Bool
  | .failure _ => true
  | _ => false

/-- The connection-core state, reduced to the fields read or written by
the embedded operations (struct ConnectionCore). -/
structure ConnectionCore where
  authenticated : Bool
  sessionId : Int
  seqNumber : Int
  sessionDead : Bool
  statementSequence : Option Int
  serverUsage : ServerUsage
  warnings : List ServerError
deriving DecidableEq, Repr

/-- The state of a freshly connected core (ConnectionCore::try_new:
authenticated false, session_id 0, seq_number 0, no warnings). -/
def ConnectionCore.initial : ConnectionCore :=
  ⟨false, 0, 0, false, none, ⟨0, 0, 0⟩, []⟩

/-- Two's-complement wrap into the i32 range, the release-mode semantics
of Rust i32 arithmetic. -/
def wrap32 (x : Int) : Int :=
  (x + 2 ^ 31) % 2 ^ 32 - 2 ^ 31

/-- ConnectionCore::next_seq_number (lines 207-210): `self.seq_number +=
1` on an `i32`, returning the new value. -/
def ConnectionCore.next_seq_number (c : ConnectionCore) :
    Int × ConnectionCore :=
  let n := wrap32 (c.seqNumber + 1)
  (n, { c with seqNumber := n })

/-- ConnectionCore::pop_warnings (lines 224-232): `None` when empty,
otherwise the accumulated warnings are swapped out and returned. -/
def ConnectionCore.pop_warnings (c : ConnectionCore) :
    Except Failure (Option (List ServerError)) × ConnectionCore :=
  if c.warnings = [] then (.ok none, c)
  else (.ok (some c.warnings), { c with warnings := [] })

/-- ConnectionCore::evaluate_statement_context (lines 114-135): stores
the statement sequence and updates the server-usage counters; always
succeeds. -/
def ConnectionCore.evaluate_statement_context (c : ConnectionCore)
    (ctx : StatementContext) : ConnectionCore :=
  { c with
    statementSequence := ctx.statementSequenceInfo
    serverUsage :=
      ⟨ctx.serverProcessingTime, ctx.serverCpuTime, ctx.serverMemoryUsage⟩ }

/-- ConnectionCore::evaluate_ta_flags (lines 215-222): updates the
session state from the transaction flags and fails with
`SessionClosingTransactionError` when the session is dead. -/
def ConnectionCore.evaluate_ta_flags (c : ConnectionCore)
    (tf : TransactionFlags) : ConnectionCore × Except Failure Unit :=
  let c := { c with sessionDead := c.sessionDead || tf.sessionClosing }
  if c.sessionDead then (c, .error (.hdb .sessionClosingTransactionError))
  else (c, .ok ())

/-- Parts::remove_first_of_kind(PartKind::Error): removes the first
Error part, returning its server-error list and the remaining parts. -/
def remove_first_error : List Part →
    Option (List ServerError × List Part)
  | [] => none
  | .error es :: rest => some (es, rest)
  | p :: rest =>
    match remove_first_error rest with
    | none => none
    | some (es, rest2) => some (es, p :: rest2)

/-- The while-let-pop loop of `handle_db_error` (lines 314-331),
digesting the parts that came with the Error part in message order:
StatementContext and TransactionFlags are evaluated, the last
ExecutionResult part is remembered, everything else is warned about and
skipped.  A failing `evaluate_ta_flags` aborts the loop. -/
def digest_parts (c : ConnectionCore) (o : Option (List ExecutionResult)) :
    List Part → ConnectionCore × Except Failure (Option (List ExecutionResult))
  | [] => (c, .ok o)
  | .statementContext ctx :: rest =>
    digest_parts (c.evaluate_statement_context ctx) o rest
  | .transactionFlags tf :: rest =>
    match c.evaluate_ta_flags tf with
    | (c2, .ok _) => digest_parts c2 o rest
    | (c2, .error e) => (c2, .error e)
  | .executionResult v :: rest => digest_parts c (some v) rest
  | _ :: rest => digest_parts c o rest

/-- The error-mixing loop of `handle_db_error` (lines 337-343): each
`Failure` placeholder, in row order, consumes the next error from the
iterator; other entries pass through.  Returns the rewritten rows and
the errors left in the iterator. -/
def mix_rows : List ExecutionResult → List ServerError →
    List ExecutionResult × List ServerError
  | [], errs => ([], errs)
  | .failure _ :: rest, errs =>
    (.failure errs.head? :: (mix_rows rest errs.tail).1,
      (mix_rows rest errs.tail).2)
  | r :: rest, errs =>
    (r :: (mix_rows rest errs).1, (mix_rows rest errs).2)

/-- Lines 333-351 of `handle_db_error`: mix the errors into the
execution results and append every leftover error as an additional
`Failure` entry. -/
def mix_errors (rows : List ExecutionResult) (errs : List ServerError) :
    List ExecutionResult :=
  (mix_rows rows errs).1 ++
    (mix_rows rows errs).2.map (fun e => .failure (some e))

/-- ConnectionCore::handle_db_error (lines 286-361).  Clears the
warning vector, removes the first Error part (no Error part: success),
partitions its entries by severity keeping the warnings on the core,
returns success when only warnings remain, otherwise digests the
accompanying parts and produces either an ExecutionResults error (when
an ExecutionResult part was present), a single DbError, or hits an
`unreachable!`. -/
def ConnectionCore.handle_db_error (c : ConnectionCore)
    (parts : List Part) : ConnectionCore × Except Failure Unit :=
  let c := { c with warnings := [] }
  match remove_first_error parts with
  | none => (c, .ok ())
  | some (serverErrors, rest) =>
    let (ws, errs) :=
      serverErrors.partition (fun se => se.severity = Severity.warning)
    let c := { c with warnings := ws }
    if errs = [] then (c, .ok ())
    else
      match digest_parts c none rest with
      | (c2, .error e) => (c2, .error e)
      | (c2, .ok o) =>
        match o with
        | some rows =>
          (c2, .error (.hdb (.executionResults (mix_errors rows errs))))
        | none =>
          match errs with
          | [e] => (c2, .error (.hdb (.dbError e)))
          | _ => (c2, .error .panicked)

/-- ConnectionCore::roundtrip_sync (lines 242-284), reduced to its
state effects: allocate the next sequence number, exchange the message
(the reply's parts are the input), then run `handle_db_error`; on
success the reply is returned to the caller. -/
def ConnectionCore.roundtrip_sync (c : ConnectionCore)
    (replyParts : List Part) : ConnectionCore × Except Failure Unit :=
  let (_, c) := c.next_seq_number
  c.handle_db_error replyParts

/-- The sequence numbers allocated by `n` successive round-trips (each
round-trip calls `next_seq_number` exactly once). -/
def run_seq_numbers (c : ConnectionCore) : Nat → List Int
  | 0 => []
  | n + 1 =>
    let (c2, _) := c.roundtrip_sync []
    c2.seqNumber :: run_seq_numbers c2 n

/-! ## CESU-8 tail splitting (src/protocol/util.rs): C6 -/

/-- The classification of the byte sequence's first character
(util.rs, enum Cesu8CharType). -/
inductive Cesu8CharType where
  | empty
  | tooShort
  | notAStart
  | one
  | two
  | three
  | firstHalfOfSurrogate
  | secondHalfOfSurrogate
deriving DecidableEq, Repr

/-- util.rs get_cesu8_char_start (lines 202-219); the match arms apply
in source order. -/
def get_cesu8_char_start : List Nat → Cesu8CharType
  | [] => .empty
  | [b] =>
    if b ≤ 0x7F then .one
    else if 0xC0 ≤ b ∧ b ≤ 0xDF then .two
    else .tooShort
  | b0 :: b1 :: _ =>
    if b0 ≤ 0x7F then .one
    else if 0xC0 ≤ b0 ∧ b0 ≤ 0xDF then .two
    else if b0 = 0xED ∧ 0xA0 ≤ b1 ∧ b1 ≤ 0xAF then .firstHalfOfSurrogate
    else if b0 = 0xED ∧ 0xB0 ≤ b1 ∧ b1 ≤ 0xBF then .secondHalfOfSurrogate
    else if 0xE0 ≤ b0 ∧ b0 ≤ 0xEF ∧ 0x80 ≤ b1 ∧ b1 ≤ 0xBF then .three
    else .notAStart

/-- The byte length of a character whose start was classified, exactly
as read off in the loop of get_tail_len (lines 102-110): `none` for the
classifications on which the loop continues searching. -/
def cesu8_char_len : Cesu8CharType → Option Nat
  | .one => some 1
  | .two => some 2
  | .three => some 3
  | .firstHalfOfSurrogate => some 6
  | _ => none

/-- One probe of the backwards search loop of get_tail_len (lines
100-119): if a character starts at `index`, the cutoff the loop would
return for it; `none` when the loop must keep searching. -/
def get_tail_probe (bytes : List Nat) (index : Nat) : Option Nat :=
  let len := bytes.length
  match cesu8_char_len (get_cesu8_char_start (bytes.drop index)) with
  | some charLen =>
    if len < index + charLen then some (len - index)
    else if index + charLen = len then some 0
    else some (len - index - charLen)
  | none => none

/-- The backwards search loop of get_tail_len (lines 98-120), with
`index` running from `len - 2` down to 0; `none` models the `panic!` on
falling through the loop. -/
def get_tail_go (bytes : List Nat) : Nat → Option Nat
  | 0 => get_tail_probe bytes 0
  | i + 1 =>
    match get_tail_probe bytes (i + 1) with
    | some n => some n
    | none => get_tail_go bytes i

/-- util.rs get_tail_len (lines 93-124): how many of the last bytes must
be cut off so that the rest ends in consistent CESU-8.  `none` models
the `panic!` when no valid cutoff point exists. -/
def get_tail_len (bytes : List Nat) : Option Nat :=
  match bytes.getLast? with
  | none => some 0
  | some b =>
    if b ≤ 127 then some 0
    else if 0xC0 ≤ b ∧ b ≤ 0xDF then some 1
    else
      match bytes.length with
      | 0 => none
      | 1 => none
      | len + 2 => get_tail_go bytes len

/-- Modelled from the spec: strict UTF-8 validation and decoding to
code points (std's `String::from_utf8`, an external collaborator; spec
section 4.1: the codec converts wire text to host UTF-8).  Surrogate
code points and overlong encodings are rejected, as std does. -/
def utf8_decode : List Nat → Option (List Nat)
  | [] => some []
  | b0 :: rest =>
    if b0 ≤ 0x7F then
      (utf8_decode rest).map (fun cps => b0 :: cps)
    else if 0xC2 ≤ b0 ∧ b0 ≤ 0xDF then
      match rest with
      | b1 :: rest2 =>
        if 0x80 ≤ b1 ∧ b1 ≤ 0xBF then
          (utf8_decode rest2).map
            (fun cps => ((b0 - 0xC0) * 0x40 + (b1 - 0x80)) :: cps)
        else none
      | _ => none
    else if 0xE0 ≤ b0 ∧ b0 ≤ 0xEF then
      match rest with
      | b1 :: b2 :: rest2 =>
        let lo1 : Nat := if b0 = 0xE0 then 0xA0 else 0x80
        let hi1 : Nat := if b0 = 0xED then 0x9F else 0xBF
        if lo1 ≤ b1 ∧ b1 ≤ hi1 ∧ 0x80 ≤ b2 ∧ b2 ≤ 0xBF then
          (utf8_decode rest2).map
            (fun cps =>
              ((b0 - 0xE0) * 0x1000 + (b1 - 0x80) * 0x40 + (b2 - 0x80)) :: cps)
        else none
      | _ => none
    else if 0xF0 ≤ b0 ∧ b0 ≤ 0xF4 then
      match rest with
      | b1 :: b2 :: b3 :: rest2 =>
        let lo1 : Nat := if b0 = 0xF0 then 0x90 else 0x80
        let hi1 : Nat := if b0 = 0xF4 then 0x8F else 0xBF
        if lo1 ≤ b1 ∧ b1 ≤ hi1 ∧ 0x80 ≤ b2 ∧ b2 ≤ 0xBF ∧
            0x80 ≤ b3 ∧ b3 ≤ 0xBF then
          (utf8_decode rest2).map
            (fun cps =>
              ((b0 - 0xF0) * 0x40000 + (b1 - 0x80) * 0x1000 +
                (b2 - 0x80) * 0x40 + (b3 - 0x80)) :: cps)
        else none
      | _ => none
    else none

/-- Modelled from the spec: CESU-8 decoding to code points (the external
cesu8 crate's `from_cesu8`; spec glossary: supplementary-plane code
points are encoded as two 3-byte surrogate halves, 6 bytes instead
of 4).  A first surrogate half must be followed by a second half; lone
surrogates and 4-byte sequences are rejected. -/
def cesu8_decode : List Nat → Option (List Nat)
  | [] => some []
  | b0 :: rest =>
    if b0 ≤ 0x7F then
      (cesu8_decode rest).map (fun cps => b0 :: cps)
    else if 0xC2 ≤ b0 ∧ b0 ≤ 0xDF then
      match rest with
      | b1 :: rest2 =>
        if 0x80 ≤ b1 ∧ b1 ≤ 0xBF then
          (cesu8_decode rest2).map
            (fun cps => ((b0 - 0xC0) * 0x40 + (b1 - 0x80)) :: cps)
        else none
      | _ => none
    else if b0 = 0xED then
      match rest with
      | b1 :: b2 :: b3 :: b4 :: b5 :: rest2 =>
        if 0xA0 ≤ b1 ∧ b1 ≤ 0xAF ∧ 0x80 ≤ b2 ∧ b2 ≤ 0xBF ∧
            b3 = 0xED ∧ 0xB0 ≤ b4 ∧ b4 ≤ 0xBF ∧ 0x80 ≤ b5 ∧ b5 ≤ 0xBF then
          (cesu8_decode rest2).map
            (fun cps =>
              (0x10000 + ((b1 - 0xA0) * 0x40 + (b2 - 0x80)) * 0x400 +
                ((b4 - 0xB0) * 0x40 + (b5 - 0x80))) :: cps)
        else if 0x80 ≤ b1 ∧ b1 ≤ 0x9F ∧ 0x80 ≤ b2 ∧ b2 ≤ 0xBF then
          (cesu8_decode (b3 :: b4 :: b5 :: rest2)).map
            (fun cps =>
              (0xD000 + (b1 - 0x80) * 0x40 + (b2 - 0x80)) :: cps)
        else none
      | b1 :: b2 :: rest2 =>
        if 0x80 ≤ b1 ∧ b1 ≤ 0x9F ∧ 0x80 ≤ b2 ∧ b2 ≤ 0xBF then
          (cesu8_decode rest2).map
            (fun cps =>
              (0xD000 + (b1 - 0x80) * 0x40 + (b2 - 0x80)) :: cps)
        else none
      | _ => none
    else if 0xE0 ≤ b0 ∧ b0 ≤ 0xEF then
      match rest with
      | b1 :: b2 :: rest2 =>
        let lo1 : Nat := if b0 = 0xE0 then 0xA0 else 0x80
        if lo1 ≤ b1 ∧ b1 ≤ 0xBF ∧ 0x80 ≤ b2 ∧ b2 ≤ 0xBF then
          (cesu8_decode rest2).map
            (fun cps =>
              ((b0 - 0xE0) * 0x1000 + (b1 - 0x80) * 0x40 + (b2 - 0x80)) :: cps)
        else none
      | _ => none
    else none

/-- util.rs string_from_cesu8 (lines 29-34): try a plain UTF-8
conversion first, fall back to CESU-8 decoding, and fail with a CESU-8
decoding error when both reject the bytes. -/
def string_from_cesu8 (bytes : List Nat) : Except Failure (List Nat) :=
  match utf8_decode bytes with
  | some cps => .ok cps
  | none =>
    match cesu8_decode bytes with
    | some cps => .ok cps
    | none => .error (.hdb .cesu8Decoding)

/-- util.rs to_string_and_tail (lines 79-89): examine at most the last
7 bytes, cut off the tail that get_tail_len designates, and decode the
front into a string.  The guard `len < tailLen` models the panic of
`Vec::split_off` on an out-of-range index (provably unreachable). -/
def to_string_and_tail (cesu8 : List Nat) :
    Except Failure (List Nat × List Nat) :=
  let len := cesu8.length
  let start := if len ≤ 7 then 0 else len - 7
  match get_tail_len (cesu8.drop start) with
  | none => .error .panicked
  | some tailLen =>
    if len < tailLen then .error .panicked
    else
      match string_from_cesu8 (cesu8.take (len - tailLen)) with
      | .error e => .error e
      | .ok s => .ok (s, cesu8.drop (len - tailLen))

/-! ## Byte-reader primitives (src/protocol/util.rs, byteorder usage) -/

/-- Read exactly `n` bytes from the front of the input
(io::Read::read_exact / util.rs parse_bytes); fails on end of input. -/
def read_exact (n : Nat) (bs : List Nat) :
    Except Failure (List Nat × List Nat) :=
  if n ≤ bs.length then .ok (bs.take n, bs.drop n)
  else .error (.hdb (.tcp "unexpected end of input"))

/-- Value of a little-endian byte sequence. -/
def le_val (bs : List Nat) : Nat :=
  bs.foldr (fun b acc => b + 256 * acc) 0

/-- Value of a big-endian byte sequence. -/
def be_val (bs : List Nat) : Nat :=
  bs.foldl (fun acc b => acc * 256 + b) 0

/-- Reinterpret a `w`-bit unsigned value as two's-complement signed. -/
def to_signed (w : Nat) (v : Nat) : Int :=
  if v < 2 ^ (w - 1) then (v : Int) else (v : Int) - 2 ^ w

/-- byteorder read_i16::<LittleEndian>. -/
def read_i16_le (bs : List Nat) : Except Failure (Int × List Nat) :=
  match read_exact 2 bs with
  | .error e => .error e
  | .ok (xs, rest) => .ok (to_signed 16 (le_val xs), rest)

/-- byteorder read_i32::<LittleEndian>. -/
def read_i32_le (bs : List Nat) : Except Failure (Int × List Nat) :=
  match read_exact 4 bs with
  | .error e => .error e
  | .ok (xs, rest) => .ok (to_signed 32 (le_val xs), rest)

/-- byteorder read_u32::<LittleEndian>. -/
def read_u32_le (bs : List Nat) : Except Failure (Nat × List Nat) :=
  match read_exact 4 bs with
  | .error e => .error e
  | .ok (xs, rest) => .ok (le_val xs, rest)

/-- byteorder read_i64::<LittleEndian>. -/
def read_i64_le (bs : List Nat) : Except Failure (Int × List Nat) :=
  match read_exact 8 bs with
  | .error e => .error e
  | .ok (xs, rest) => .ok (to_signed 64 (le_val xs), rest)

/-- byteorder read_i8. -/
def read_i8 (bs : List Nat) : Except Failure (Int × List Nat) :=
  match read_exact 1 bs with
  | .error e => .error e
  | .ok (xs, rest) => .ok (to_signed 8 (le_val xs), rest)

/-- byteorder read_u8. -/
def read_u8 (bs : List Nat) : Except Failure (Nat × List Nat) :=
  match read_exact 1 bs with
  | .error e => .error e
  | .ok (xs, rest) => .ok (le_val xs, rest)

/-- byteorder read_u32::<BigEndian> (the one big-endian field of the
protocol, spec section 4.1). -/
def read_u32_be (bs : List Nat) : Except Failure (Nat × List Nat) :=
  match read_exact 4 bs with
  | .error e => .error e
  | .ok (xs, rest) => .ok (be_val xs, rest)

/-! ## Reply message header parsing (src/protocol/reply.rs): C5 -/

/-- The reply type carried in the segment header.  Modelled from the
spec: reply_type.rs with the i16-to-variant mapping is not under src;
the spec (section 4.3) only says the segment header carries a ReplyType
as an i16, so the code is kept abstract. -/
structure ReplyType where
  code : Int
deriving DecidableEq, Repr

/-- Modelled from the spec: ReplyType::from_i16 (reply_type.rs is not
under src); kept as the abstract i16 code, see `ReplyType`. -/
def reply_type_from_i16 (n : Int) : Except Failure ReplyType :=
  .ok ⟨n⟩

/-- Segment kind (reply.rs, enum Kind). -/
inductive SegKind where
  | request
  | reply
  | error
deriving DecidableEq, Repr

/-- Kind::from_i8 (reply.rs lines 374-384). -/
def seg_kind_from_i8 (v : Int) : Except Failure SegKind :=
  if v = 1 then .ok .request
  else if v = 2 then .ok .reply
  else if v = 5 then .ok .error
  else .error (.hdb (.implErr "Invalid value for message Kind detected"))

/-- The reply skeleton built by the header parse (reply.rs, struct
Reply without its parts). -/
structure ReplyHeader where
  sessionId : Int
  replytype : ReplyType
deriving DecidableEq, Repr

/-- reply.rs parse_message_and_sequence_header (lines 322-364): parse
the 32-byte message header and the 24-byte segment header, returning
the part count and the reply skeleton.  The multi-segment check is the
source's `assert_eq!(no_of_segs, 1)`: its failure is a panic, modelled
as `Failure.panicked`. -/
def parse_message_and_sequence_header (input : List Nat) :
    Except Failure ((Int × ReplyHeader) × List Nat) :=
  match read_i64_le input with
  | .error e => .error e
  | .ok (sessionId, r1) =>
    match read_i32_le r1 with
    | .error e => .error e
    | .ok (_, r2) =>
      match read_u32_le r2 with
      | .error e => .error e
      | .ok (_, r3) =>
        match read_u32_le r3 with
        | .error e => .error e
        | .ok (_, r4) =>
          match read_i16_le r4 with
          | .error e => .error e
          | .ok (noOfSegs, r5) =>
            if noOfSegs ≠ 1 then .error .panicked
            else
              match read_exact 10 r5 with
              | .error e => .error e
              | .ok (_, r6) =>
                match read_i32_le r6 with
                | .error e => .error e
                | .ok (_, r7) =>
                  match read_i32_le r7 with
                  | .error e => .error e
                  | .ok (_, r8) =>
                    match read_i16_le r8 with
                    | .error e => .error e
                    | .ok (noOfParts, r9) =>
                      match read_i16_le r9 with
                      | .error e => .error e
                      | .ok (_, r10) =>
                        match read_i8 r10 with
                        | .error e => .error e
                        | .ok (kindCode, r11) =>
                          match seg_kind_from_i8 kindCode with
                          | .error e => .error e
                          | .ok .request =>
                            .error (.hdb (.usage "Cannot parse a request"))
                          | .ok _ =>
                            match read_exact 1 r11 with
                            | .error e => .error e
                            | .ok (_, r12) =>
                              match read_i16_le r12 with
                              | .error e => .error e
                              | .ok (rtCode, r13) =>
                                match reply_type_from_i16 rtCode with
                                | .error e => .error e
                                | .ok rt =>
                                  match read_exact 8 r13 with
                                  | .error e => .error e
                                  | .ok (_, r14) =>
                                    .ok ((noOfParts, ⟨sessionId, rt⟩), r14)

/-! ## Authentication (src/protocol/authenticate.rs,
src/authentication/scram_pbkdf2_sha256.rs): C1, C3 -/

/-- Part kinds appearing in the authentication replies
(protocol/lowlevel/partkind.rs, reduced to the kinds evaluate_reply2
inspects). -/
inductive OldPartKind where
  | authentication
  | topologyInformation
  | connectOptions
  | other (kind : Nat)
deriving DecidableEq, Repr

/-- Part payloads for the authentication replies
(protocol/lowlevel/argument.rs, reduced accordingly; the topology and
connect-options payloads are opaque here). -/
inductive OldArgument where
  | auth (fields : List (List Nat))
  | topologyInformation (attrs : List Nat)
  | connectOptions (opts : List Nat)
  | other
deriving DecidableEq, Repr

/-- A part of the first-generation protocol layer
(protocol/lowlevel/part.rs). -/
structure OldPart where
  kind : OldPartKind
  arg : OldArgument
deriving DecidableEq, Repr

/-- Modelled from the spec: Parts::pop_arg_if_kind
(protocol/lowlevel/part.rs is not under src).  Following the name and
the pop-based digestion used throughout the source, it pops the last
part when its kind matches and returns its argument; otherwise it
leaves the parts untouched. -/
def pop_arg_if_kind (kind : OldPartKind) (parts : List OldPart) :
    Option OldArgument × List OldPart :=
  match parts.getLast? with
  | some p =>
    if p.kind = kind then (some p.arg, parts.dropLast) else (none, parts)
  | none => (none, parts)

/-- A parsed reply of the first-generation protocol layer (reply.rs,
struct Reply: session id and parts; the reply type plays no role in
evaluate_reply2). -/
structure OldReply where
  sessionId : Int
  parts : List OldPart
deriving DecidableEq, Repr

/-- The connection-core state touched by evaluate_reply2
(protocol/lowlevel/conn_core.rs, reduced to those fields). -/
structure AuthConnCore where
  sessionId : Int
  topology : List Nat
  serverConnectOptions : List Nat
  authenticated : Bool
deriving DecidableEq, Repr

/-- The initial state of the reduced authentication-time core. -/
def AuthConnCore.initial : AuthConnCore :=
  ⟨0, [], [], false⟩

/-- authenticate.rs evaluate_reply2 (lines 133-176): store the session
id, swap in the topology attributes and the server connect options,
pop the Authentication part and swap its first field into a local
`server_proof` buffer — which is then, per the source's own FIXME,
never evaluated — and mark the session authenticated.  `vec[0]` on an
empty field list is a panic. -/
def evaluate_reply2 (reply : OldReply) (core : AuthConnCore) :
    Except Failure AuthConnCore :=
  let core := { core with sessionId := reply.sessionId }
  match pop_arg_if_kind .topologyInformation reply.parts with
  | (some (.topologyInformation vec), parts1) =>
    let core := { core with topology := vec }
    match pop_arg_if_kind .connectOptions parts1 with
    | (some (.connectOptions opts), parts2) =>
      let core := { core with serverConnectOptions := opts }
      match pop_arg_if_kind .authentication parts2 with
      | (some (.auth fields), _) =>
        match fields with
        | [] => .error .panicked
        | _serverProof :: _ => .ok { core with authenticated := true }
      | _ =>
        .error (.hdb (.implErr "expected Authentication part"))
    | _ =>
      .error (.hdb (.implErr "expected ConnectOptions part"))
  | _ =>
    .error (.hdb (.implErr "expected TopologyInformation part"))

/-- Modelled from the spec: the auth-field list format
(protocol/parts/authfields.rs is not under src).  Per the SCRAM
exchange in authenticate.rs (get_salt_and_key) and spec section 4.6, a
field list is a little-endian i16 field count followed by
length-prefixed (u8) fields; this reads one run of `count` fields. -/
def read_auth_fields : Nat → List Nat →
    Except Failure (List (List Nat) × List Nat)
  | 0, bs => .ok ([], bs)
  | n + 1, bs =>
    match read_u8 bs with
    | .error e => .error e
    | .ok (len, r1) =>
      match read_exact len r1 with
      | .error e => .error e
      | .ok (field, r2) =>
        match read_auth_fields n r2 with
        | .error e => .error e
        | .ok (fields, r3) => .ok (field :: fields, r3)

/-- Modelled from the spec: AuthFields::parse
(protocol/parts/authfields.rs is not under src); see
`read_auth_fields` for the wire format. -/
def auth_fields_parse (bytes : List Nat) :
    Except Failure (List (List Nat)) :=
  match read_i16_le bytes with
  | .error e => .error e
  | .ok (count, rest) =>
    match read_auth_fields count.toNat rest with
    | .error e => .error e
    | .ok (fields, _) => .ok fields

/-- The authenticator state of the PBKDF2 variant
(scram_pbkdf2_sha256.rs, struct ScramPbkdf2Sha256). -/
structure ScramPbkdf2Sha256 where
  clientChallenge : List Nat
  serverProof : Option (List Nat)
deriving DecidableEq, Repr

/-- Modelled from the spec: crypto_util::scram_pdkdf2_sha256
(authentication/crypto_util.rs is not under src).  The spec describes
it as a total derivation — "Derive key via PBKDF2-HMAC-SHA256 for
`iterations` rounds; then compute client-proof and server-proof" — that
cannot fail; every claim here depends only on that totality and on the
32-byte proof size, never on the proof bytes, so the derivation is
modelled as returning fixed 32-byte proofs. -/
def scram_pdkdf2_sha256 (salt serverNonce clientChallenge password : List Nat)
    (iterations : Nat) : List Nat × List Nat :=
  (List.replicate 32 0, List.replicate 32 0)

/-- scram_pbkdf2_sha256.rs parse_first_server_data (lines 95-120): the
server data must hold exactly three auth fields — in wire order salt,
server-nonce, iteration count (big-endian u32) — and is rejected for
fewer than 15000 iterations or less than 16 bytes of salt. -/
def parse_first_server_data (serverData : List Nat) :
    Except Failure (List Nat × List Nat × Nat) :=
  match auth_fields_parse serverData with
  | .error e => .error e
  | .ok af =>
    match af with
    | [salt, serverNonce, itBytes] =>
      match read_u32_be itBytes with
      | .error e => .error e
      | .ok (iterations, _) =>
        if iterations < 15000 then
          .error (.hdb (.implDetailed "not enough iterations"))
        else if salt.length < 16 then
          .error (.hdb (.implDetailed "too little salt"))
        else .ok (salt, serverNonce, iterations)
    | _ => .error (.hdb (.implErr "expected 3 auth fields"))

/-- ScramPbkdf2Sha256::client_proof (scram_pbkdf2_sha256.rs lines
42-74): parse and validate the first server data, run the PBKDF2
derivation, clear the client challenge, remember the expected server
proof, and emit `u16 1, u8 32, proof`. -/
def ScramPbkdf2Sha256.client_proof (st : ScramPbkdf2Sha256)
    (serverData password : List Nat) :
    Except Failure (List Nat × ScramPbkdf2Sha256) :=
  match parse_first_server_data serverData with
  | .error e => .error e
  | .ok (salt, serverNonce, iterations) =>
    let (clientProof, serverProof) :=
      scram_pdkdf2_sha256 salt serverNonce st.clientChallenge password
        iterations
    let st := { st with clientChallenge := [], serverProof := some serverProof }
    .ok ([0x00, 0x01, 32] ++ clientProof, st)

/-- ScramPbkdf2Sha256::verify_server (scram_pbkdf2_sha256.rs lines
76-91): parse the second server data as auth fields, pop the last field
as the received server proof, and succeed only when a locally computed
proof exists and matches; otherwise fail with a Usage error declaring a
severe security issue. -/
def ScramPbkdf2Sha256.verify_server (st : ScramPbkdf2Sha256)
    (serverData : List Nat) : Except Failure Unit :=
  match auth_fields_parse serverData with
  | .error e => .error e
  | .ok fields =>
    match fields.getLast? with
    | none => .error (.hdb (.implErr "expected non-empty list of auth fields"))
    | some srvProof =>
      match st.serverProof with
      | some sp =>
        if sp = srvProof then .ok ()
        else .error (.hdb (.usage "Server proof failed"))
      | none => .error (.hdb (.usage "Server proof failed"))

/-! ## BLob streaming (src/types_impl/lob/blob.rs): C8, C9 -/

/-- One ReadLob reply: the chunk bytes and the is-last flag, as
returned by fetch_a_lob_chunk. -/
structure LobChunk where
  bytes : List Nat
  isLast : Bool
deriving DecidableEq, Repr

/-- The BLob handle (blob.rs, struct BLobHandle, reduced to the fields
the embedded operations touch; `hasConnCore` stands for
`o_am_conn_core.is_some()`). -/
structure BLobHandle where
  hasConnCore : Bool
  isDataComplete : Bool
  totalByteLength : Nat
  locatorId : Nat
  data : List Nat
  maxBufLen : Nat
  accByteLength : Nat
deriving DecidableEq, Repr

/-- BLobHandle::new (blob.rs lines 128-151). -/
def BLobHandle.new (isDataComplete : Bool) (totalByteLength locatorId : Nat)
    (data : List Nat) : BLobHandle :=
  ⟨true, isDataComplete, totalByteLength, locatorId, data, data.length,
    data.length⟩

/-- BLobHandle::fetch_next_chunk (blob.rs lines 161-203).  The
round-trip itself (fetch_a_lob_chunk, types_impl/lob/fetch.rs, not
under src) is modelled by handing the function the server's reply
chunk.  Already-complete handles and handles without a connection fail;
otherwise the chunk is appended, the accumulated length updated, the
completeness flag taken from the reply, and the source's
`assert_eq!(is_data_complete, total_byte_length == acc_byte_length)`
panics on mismatch. -/
def BLobHandle.fetch_next_chunk (h : BLobHandle) (reply : LobChunk) :
    Except Failure BLobHandle :=
  if h.isDataComplete then
    .error (.hdb (.implErr "fetch_next_chunk(): already complete"))
  else if h.hasConnCore = false then
    .error (.hdb (.usage "connection already closed"))
  else
    let h := { h with
      accByteLength := h.accByteLength + reply.bytes.length
      data := h.data ++ reply.bytes
      isDataComplete := reply.isLast
      maxBufLen := max (h.data.length + reply.bytes.length) h.maxBufLen }
    if h.isDataComplete = decide (h.totalByteLength = h.accByteLength)
    then .ok h
    else .error .panicked

/-- The fetch loop of `impl io::Read for BLobHandle` (blob.rs lines
230-234): while the LOB is incomplete and the buffered data is shorter
than the destination buffer, pull one more chunk.  Each round-trip
consumes the next reply from the server oracle; an exhausted oracle is
a transport failure. -/
def blob_read_loop (bufLen : Nat) : BLobHandle → List LobChunk →
    Except Failure (BLobHandle × List LobChunk)
  | h, [] =>
    if h.isDataComplete = false ∧ h.data.length < bufLen then
      .error (.hdb (.tcp "no lob reply"))
    else .ok (h, [])
  | h, chunk :: rest =>
    if h.isDataComplete = false ∧ h.data.length < bufLen then
      match h.fetch_next_chunk chunk with
      | .error e => .error e
      | .ok h2 => blob_read_loop bufLen h2 rest
    else .ok (h, chunk :: rest)

/-- io::Read::read for BLobHandle (blob.rs lines 226-240): run the
fetch loop, then copy `min(dest length, buffered length)` bytes into
the destination and drain exactly those from the front of the internal
buffer; the returned value is the copied bytes (the read count is their
length). -/
def BLobHandle.read (h : BLobHandle) (bufLen : Nat)
    (server : List LobChunk) :
    Except Failure ((List Nat × BLobHandle) × List LobChunk) :=
  match blob_read_loop bufLen h server with
  | .error e => .error e
  | .ok (h2, server2) =>
    let count := min h2.data.length bufLen
    .ok ((h2.data.take count, { h2 with data := h2.data.drop count }),
      server2)

/-! ## Theorems -/

/-- C10: ConnectParamsBuilder::build moves the configured dbuser,
password, and clientlocale out of the builder and empties its options
list: after one successful build, a second build on the same builder
without setting dbuser and password again fails with a Usage error,
while the hostname and port settings are retained and can be reused. -/
theorem c10_build_consumes_credentials_keeps_host
    (b : ConnectParamsBuilder) (h : String) (p : Nat) (u pw u2 pw2 : String)
    (hh : b.hostname = some h) (hp : b.port = some p)
    (hu : b.dbuser = some u) (hpw : b.password = some pw) :
    (b.build.1 = .ok ⟨h, p, u, pw, b.clientlocale, b.options⟩) ∧
    (b.build.2.hostname = some h ∧ b.build.2.port = some p ∧
      b.build.2.dbuser = none ∧ b.build.2.password = none ∧
      b.build.2.clientlocale = none ∧ b.build.2.options = []) ∧
    (b.build.2.build.1 = .error (.usage "dbuser is missing")) ∧
    (((b.build.2.set_dbuser u2).set_password pw2).build.1 =
      .ok ⟨h, p, u2, pw2, none, []⟩) := by
  cases b
  simp only [ConnectParamsBuilder.hostname] at hh
  simp only [ConnectParamsBuilder.port] at hp
  simp only [ConnectParamsBuilder.dbuser] at hu
  simp only [ConnectParamsBuilder.password] at hpw
  subst hh hp hu hpw
  simp [ConnectParamsBuilder.build, host_parse,
    ConnectParamsBuilder.set_dbuser, ConnectParamsBuilder.set_password]

/-- Witness for C10 at a concrete builder. -/
theorem c10_build_consumes_credentials_keeps_host_witness :
    (ConnectParamsBuilder.build
        ⟨some "abcd123", some 2222, some "MEIER", some "schlau", none,
          [("x", "y")]⟩).1 =
      .ok ⟨"abcd123", 2222, "MEIER", "schlau", none, [("x", "y")]⟩ :=
  (c10_build_consumes_credentials_keeps_host
    ⟨some "abcd123", some 2222, some "MEIER", some "schlau", none,
      [("x", "y")]⟩
    "abcd123" 2222 "MEIER" "schlau" "HALLODRI" "kannnix"
    rfl rfl rfl rfl).1

/-- C1: the claim demands that both SCRAM variants verify the received
server-proof on the second reply and fail authentication on mismatch.
The code violates this for plain SCRAM-SHA256: at a concrete second
reply whose server-proof bytes `[0xDE, 0xAD]` can match no locally
computed 32-byte proof, `evaluate_reply2` nevertheless returns Ok with
the session marked authenticated (the source's own FIXME: "the server
proof is not evaluated"), while the PBKDF2 variant's `verify_server`
rejects the same proof against a locally computed one as the claim
demands. -/
theorem c1_sha256_server_proof_not_verified :
    evaluate_reply2
        ⟨77,
          [⟨.authentication, .auth [[0xDE, 0xAD]]⟩,
            ⟨.connectOptions, .connectOptions []⟩,
            ⟨.topologyInformation, .topologyInformation []⟩]⟩
        AuthConnCore.initial =
      .ok ⟨77, [], [], true⟩ ∧
    ScramPbkdf2Sha256.verify_server ⟨[], some (List.replicate 32 9)⟩
        [1, 0, 2, 0xDE, 0xAD] =
      .error (.hdb (.usage "Server proof failed")) :=
  ⟨rfl, rfl⟩

/-- C8: after every successful chunk fetch, the handle has appended the
received bytes, added their count to the accumulated byte length, and
satisfies the invariant that the is-complete flag is true exactly when
the accumulated byte length equals the total byte length reported by
the server (the source asserts this equality after every fetch). -/
theorem c8_lob_complete_iff_acc_eq_total
    (h h2 : BLobHandle) (reply : LobChunk)
    (hfetch : h.fetch_next_chunk reply = .ok h2) :
    h2.data = h.data ++ reply.bytes ∧
    h2.accByteLength = h.accByteLength + reply.bytes.length ∧
    (h2.isDataComplete = true ↔ h2.accByteLength = h2.totalByteLength) := by
  unfold BLobHandle.fetch_next_chunk at hfetch
  split at hfetch
  · exact absurd hfetch (by simp)
  · split at hfetch
    · exact absurd hfetch (by simp)
    · dsimp only at hfetch
      split at hfetch
      · rename_i hassert
        injection hfetch with hfetch
        subst hfetch
        refine ⟨rfl, rfl, ?_⟩
        simp only [hassert]
        constructor
        · intro hd
          exact (of_decide_eq_true hd).symm
        · intro hd
          exact decide_eq_true hd.symm
      · exact absurd hfetch (by simp)

/-- Witness for C8 at a concrete handle and chunk. -/
theorem c8_lob_complete_iff_acc_eq_total_witness :
    (BLobHandle.new false 5 1 [10, 11]).fetch_next_chunk
        ⟨[12, 13, 14], true⟩ =
      .ok ⟨true, true, 5, 1, [10, 11, 12, 13, 14], 5, 5⟩ ∧
    ((true : Bool) = true ↔ (5 : Nat) = 5) :=
  ⟨rfl,
    (c8_lob_complete_iff_acc_eq_total (BLobHandle.new false 5 1 [10, 11])
      ⟨true, true, 5, 1, [10, 11, 12, 13, 14], 5, 5⟩
      ⟨[12, 13, 14], true⟩ rfl).2.2⟩

theorem wrap32_eq_self {x : Int} (h0 : -2 ^ 31 ≤ x) (h1 : x < 2 ^ 31) :
    wrap32 x = x := by
  unfold wrap32
  rw [Int.emod_eq_of_lt (by omega) (by omega)]
  omega

theorem roundtrip_sync_empty_seq (c : ConnectionCore) :
    ((c.roundtrip_sync []).1).seqNumber = wrap32 (c.seqNumber + 1) := by
  simp [ConnectionCore.roundtrip_sync, ConnectionCore.next_seq_number,
    ConnectionCore.handle_db_error, remove_first_error]

theorem run_seq_numbers_no_wrap (n k : Nat) (c : ConnectionCore)
    (hc : c.seqNumber = (k : Int)) (hn : k + n ≤ 2 ^ 31 - 1) :
    run_seq_numbers c n =
      (List.range n).map (fun (i : Nat) => (k : Int) + i + 1) := by
  induction n generalizing k c with
  | zero => simp [run_seq_numbers]
  | succ m ih =>
    rw [run_seq_numbers]
    have hseq : ((c.roundtrip_sync []).1).seqNumber = (k : Int) + 1 := by
      rw [roundtrip_sync_empty_seq, hc]
      exact wrap32_eq_self (by omega) (by omega)
    rcases hrt : c.roundtrip_sync [] with ⟨c2, r⟩
    rw [hrt] at hseq
    rw [List.range_succ_eq_map, List.map_cons, List.map_map]
    refine List.cons_eq_cons.mpr ⟨by simpa using hseq, ?_⟩
    rw [ih (k + 1) c2 (by exact_mod_cast hseq) (by omega)]
    refine List.map_congr_left ?_
    intro i _
    simp only [Function.comp_apply]
    push_cast
    ring

/-- C7 counterexample: at the reachable core state whose sequence number
is 2^31 - 1, the next allocation wraps the i32 to -2^31, which is
neither the previous number incremented by one nor larger than it, so
the sequence numbers of a session are not unboundedly strictly
monotonic. -/
theorem c7_seq_number_wraps_at_i32_max :
    (ConnectionCore.next_seq_number
        { ConnectionCore.initial with seqNumber := 2147483647 }).1 =
      -2147483648 ∧
    (ConnectionCore.next_seq_number
        { ConnectionCore.initial with seqNumber := 2147483647 }).1 ≠
      2147483647 + 1 ∧
    ¬(2147483647 : Int) <
      (ConnectionCore.next_seq_number
        { ConnectionCore.initial with seqNumber := 2147483647 }).1 := by
  refine ⟨by decide, by decide, by decide⟩

/-- C7 (amended): within one session, every round-trip allocates its
packet sequence number by incrementing the previously used number by
exactly one with i32 wrap-around; as long as the session performs at
most 2^31 - 1 round-trips no wrap occurs, so the allocated numbers
1, 2, ..., n are strictly monotonically increasing and never reused. -/
theorem c7_seq_numbers_strictly_increasing (n : Nat)
    (hn : n ≤ 2 ^ 31 - 1) :
    run_seq_numbers ConnectionCore.initial n =
      (List.range n).map (fun (i : Nat) => (i : Int) + 1) ∧
    (run_seq_numbers ConnectionCore.initial n).Pairwise (· < ·) := by
  have h := run_seq_numbers_no_wrap n 0 ConnectionCore.initial rfl
    (by omega)
  simp only [Nat.cast_zero, zero_add] at h
  refine ⟨h, ?_⟩
  rw [h]
  refine List.Pairwise.map _ ?_ (List.pairwise_lt_range n)
  intro a b hab
  omega

/-- Witness for C7 at n = 3. -/
theorem c7_seq_numbers_strictly_increasing_witness :
    run_seq_numbers ConnectionCore.initial 3 = [1, 2, 3] ∧
    (run_seq_numbers ConnectionCore.initial 3).Pairwise (· < ·) := by
  have h := c7_seq_numbers_strictly_increasing 3 (by decide)
  refine ⟨?_, h.2⟩
  rw [h.1]
  decide

/-- C4 counterexample: two successive round-trips whose replies carry
one warning each both succeed, but the session's warning vector
afterwards holds only the second warning — `handle_db_error` clears the
vector at the start of every round-trip — refuting the claim that
warnings accumulate across successive round-trips until pop_warnings
drains them. -/
theorem c4_warnings_do_not_accumulate :
    ((ConnectionCore.initial.roundtrip_sync
        [.error [⟨1, 0, .warning, "", "w1"⟩]]).2 = .ok () ∧
      (((ConnectionCore.initial.roundtrip_sync
          [.error [⟨1, 0, .warning, "", "w1"⟩]]).1.roundtrip_sync
        [.error [⟨2, 0, .warning, "", "w2"⟩]]).2 = .ok ())) ∧
    (((ConnectionCore.initial.roundtrip_sync
        [.error [⟨1, 0, .warning, "", "w1"⟩]]).1.roundtrip_sync
      [.error [⟨2, 0, .warning, "", "w2"⟩]]).1.warnings =
        [⟨2, 0, .warning, "", "w2"⟩]) ∧
    ¬(((ConnectionCore.initial.roundtrip_sync
        [.error [⟨1, 0, .warning, "", "w1"⟩]]).1.roundtrip_sync
      [.error [⟨2, 0, .warning, "", "w2"⟩]]).1.warnings =
        [⟨1, 0, .warning, "", "w1"⟩, ⟨2, 0, .warning, "", "w2"⟩]) := by
  refine ⟨⟨rfl, rfl⟩, rfl, by decide⟩

/-- C4 (amended): for every round-trip whose reply's Error part
contains only entries of severity Warning, the round-trip returns the
reply successfully (no error is raised) and the warnings are kept on
the session's warning vector, replacing whatever warnings a previous
round-trip had left there (the vector is cleared at the start of every
reply's error handling); pop_warnings then drains them; a warning is
never turned into an error. -/
theorem c4_only_warnings_is_success (c : ConnectionCore)
    (parts rest : List Part) (es : List ServerError)
    (hrm : remove_first_error parts = some (es, rest))
    (hw : ∀ se ∈ es, se.severity = Severity.warning) :
    (c.handle_db_error parts).2 = .ok () ∧
    (c.handle_db_error parts).1.warnings = es ∧
    ((c.handle_db_error parts).1.pop_warnings).1 =
      .ok (if es = [] then none else some es) ∧
    ((c.handle_db_error parts).1.pop_warnings).2.warnings = [] := by
  have hpart :
      es.partition (fun se => se.severity = Severity.warning) = (es, []) := by
    rw [List.partition_eq_filter_filter]
    refine Prod.ext ?_ ?_
    · simp only
      exact List.filter_eq_self.mpr (fun se hse => by
        simpa using hw se hse)
    · simp only
      refine List.filter_eq_nil_iff.mpr (fun se hse => by
        simpa using hw se hse)
  have hh : c.handle_db_error parts =
      ({ c with warnings := es }, .ok ()) := by
    unfold ConnectionCore.handle_db_error
    rw [hrm]
    simp only [hpart]
    simp
  rw [hh]
  refine ⟨rfl, rfl, ?_, ?_⟩
  · unfold ConnectionCore.pop_warnings
    by_cases hes : es = [] <;> simp [hes]
  · unfold ConnectionCore.pop_warnings
    by_cases hes : es = [] <;> simp [hes]

/-- Witness for C4 at a concrete reply with two warnings. -/
theorem c4_only_warnings_is_success_witness :
    ((ConnectionCore.initial.handle_db_error
        [.other 5,
          .error [⟨1, 0, .warning, "", "wa"⟩, ⟨2, 0, .warning, "", "wb"⟩]]).2 =
      .ok ()) ∧
    ((ConnectionCore.initial.handle_db_error
        [.other 5,
          .error [⟨1, 0, .warning, "", "wa"⟩, ⟨2, 0, .warning, "", "wb"⟩]]).1.warnings =
      [⟨1, 0, .warning, "", "wa"⟩, ⟨2, 0, .warning, "", "wb"⟩]) := by
  have h := c4_only_warnings_is_success ConnectionCore.initial
    [.other 5,
      .error [⟨1, 0, .warning, "", "wa"⟩, ⟨2, 0, .warning, "", "wb"⟩]]
    [.other 5] [⟨1, 0, .warning, "", "wa"⟩, ⟨2, 0, .warning, "", "wb"⟩]
    (by decide) (by decide)
  exact ⟨h.1, h.2.1⟩

theorem read_exact_append (xs ys : List Nat) :
    read_exact xs.length (xs ++ ys) = .ok (xs, ys) := by
  simp [read_exact]

theorem read_i64_le_append (xs ys : List Nat) (h : xs.length = 8) :
    read_i64_le (xs ++ ys) = .ok (to_signed 64 (le_val xs), ys) := by
  unfold read_i64_le
  rw [← h, read_exact_append]

theorem read_i32_le_append (xs ys : List Nat) (h : xs.length = 4) :
    read_i32_le (xs ++ ys) = .ok (to_signed 32 (le_val xs), ys) := by
  unfold read_i32_le
  rw [← h, read_exact_append]

theorem read_u32_le_append (xs ys : List Nat) (h : xs.length = 4) :
    read_u32_le (xs ++ ys) = .ok (le_val xs, ys) := by
  unfold read_u32_le
  rw [← h, read_exact_append]

theorem read_i16_le_append (xs ys : List Nat) (h : xs.length = 2) :
    read_i16_le (xs ++ ys) = .ok (to_signed 16 (le_val xs), ys) := by
  unfold read_i16_le
  rw [← h, read_exact_append]

/-- C5 counterexample: a reply whose message header states 2 segments
makes `parse_message_and_sequence_header` panic (the source's
`assert_eq!(no_of_segs, 1)`), which aborts the process instead of
returning a parse error: no `HdbError` is ever returned for this
input. -/
theorem c5_multi_segment_panics_concrete :
    parse_message_and_sequence_header
        (List.replicate 20 0 ++ [2, 0]) = .error .panicked ∧
    ∀ e : HdbError,
      parse_message_and_sequence_header
        (List.replicate 20 0 ++ [2, 0]) ≠ .error (.hdb e) := by
  have h1 : parse_message_and_sequence_header
      (List.replicate 20 0 ++ [2, 0]) = .error .panicked := by rfl
  refine ⟨h1, fun e he => ?_⟩
  rw [h1] at he
  simp at he

/-- C5 (amended): parsing a reply message whose message header states a
number of segments different from 1 is rejected at parse time, but by
the failing assertion `assert_eq!(no_of_segs, 1)` — a process-aborting
panic — rather than by returning a parse error; no Reply is
produced. -/
theorem c5_multi_segment_is_panic_not_error (front : List Nat)
    (hf : front.length = 20) (n0 n1 : Nat) (rest : List Nat)
    (hne : to_signed 16 (le_val [n0, n1]) ≠ 1) :
    parse_message_and_sequence_header (front ++ n0 :: n1 :: rest) =
      .error .panicked := by
  obtain ⟨a, b, hab, ha, hb⟩ :
      ∃ a b : List Nat, front = a ++ b ∧ a.length = 8 ∧ b.length = 12 :=
    ⟨front.take 8, front.drop 8, (List.take_append_drop 8 front).symm,
      by simp [hf], by simp [hf]⟩
  obtain ⟨c, d, hcd, hc, hd⟩ :
      ∃ c d : List Nat, b = c ++ d ∧ c.length = 4 ∧ d.length = 8 :=
    ⟨b.take 4, b.drop 4, (List.take_append_drop 4 b).symm,
      by simp [hb], by simp [hb]⟩
  obtain ⟨g, k, hgk, hg, hk⟩ :
      ∃ g k : List Nat, d = g ++ k ∧ g.length = 4 ∧ k.length = 4 :=
    ⟨d.take 4, d.drop 4, (List.take_append_drop 4 d).symm,
      by simp [hd], by simp [hd]⟩
  subst hab hcd hgk
  unfold parse_message_and_sequence_header
  rw [show (a ++ (c ++ (g ++ k))) ++ n0 :: n1 :: rest =
      a ++ (c ++ (g ++ (k ++ ([n0, n1] ++ rest)))) by simp]
  simp only [read_i64_le_append a _ ha, read_i32_le_append c _ hc,
    read_u32_le_append g _ hg, read_u32_le_append k _ hk,
    read_i16_le_append [n0, n1] rest (by rfl)]
  simp [hne]

/-- Witness for C5 at the concrete two-segment header. -/
theorem c5_multi_segment_is_panic_not_error_witness :
    parse_message_and_sequence_header
        (List.replicate 20 0 ++ 2 :: 0 :: ([] : List Nat)) =
      .error .panicked :=
  c5_multi_segment_is_panic_not_error (List.replicate 20 0) (by decide)
    2 0 [] (by decide)

/-- C3: for every first server challenge of the SCRAM-PBKDF2-SHA256
variant that parses into exactly three auth fields (salt, server-nonce,
iteration count), computing the client proof fails with an error if the
iteration count is below 15000 or the salt is shorter than 16 bytes,
and otherwise accepts the challenge and produces a proof. -/
theorem c3_pbkdf2_rejects_weak_parameters
    (serverData salt serverNonce itBytes password : List Nat)
    (st : ScramPbkdf2Sha256)
    (hparse : auth_fields_parse serverData =
      .ok [salt, serverNonce, itBytes])
    (hlen : 4 ≤ itBytes.length) :
    (be_val (itBytes.take 4) < 15000 ∨ salt.length < 16 →
      ∃ e, st.client_proof serverData password = .error (.hdb e)) ∧
    (¬(be_val (itBytes.take 4) < 15000 ∨ salt.length < 16) →
      ∃ proof st2,
        st.client_proof serverData password = .ok (proof, st2)) := by
  have hu32 : read_u32_be itBytes = .ok (be_val (itBytes.take 4),
      itBytes.drop 4) := by
    unfold read_u32_be read_exact
    simp [hlen]
  unfold ScramPbkdf2Sha256.client_proof parse_first_server_data
  rw [hparse]
  simp only [hu32]
  constructor
  · intro hbad
    rcases hbad with hit | hsalt
    · simp [hit]
    · by_cases hit : be_val (itBytes.take 4) < 15000
      · simp [hit]
      · simp [hit, hsalt]
  · intro hgood
    push_neg at hgood
    simp [Nat.not_lt.mpr hgood.1, Nat.not_lt.mpr hgood.2]

/-- Witness for C3 at a concrete server challenge with a 16-byte salt
and 15000 iterations. -/
theorem c3_pbkdf2_rejects_weak_parameters_witness :
    ∃ proof st2,
      ScramPbkdf2Sha256.client_proof ⟨[1], none⟩
        ([3, 0, 16] ++ List.replicate 16 7 ++
          [4, 1, 2, 3, 4, 4, 0, 0, 58, 152]) [5, 6] =
      .ok (proof, st2) :=
  (c3_pbkdf2_rejects_weak_parameters
    ([3, 0, 16] ++ List.replicate 16 7 ++ [4, 1, 2, 3, 4, 4, 0, 0, 58, 152])
    (List.replicate 16 7) [1, 2, 3, 4] [0, 0, 58, 152] [5, 6] ⟨[1], none⟩
    (by rfl) (by decide)).2 (by decide)

theorem cesu8_char_len_bounds (t : Cesu8CharType) (c : Nat)
    (h : cesu8_char_len t = some c) : 1 ≤ c ∧ c ≤ 6 := by
  cases t <;> simp [cesu8_char_len] at h <;> omega

theorem get_tail_probe_le (bytes : List Nat) (i n : Nat)
    (h7 : bytes.length ≤ 7) (h : get_tail_probe bytes i = some n) :
    n ≤ 6 ∧ n ≤ bytes.length := by
  unfold get_tail_probe at h
  rcases hc : cesu8_char_len (get_cesu8_char_start (bytes.drop i)) with
    _ | c
  · rw [hc] at h
    simp at h
  · rw [hc] at h
    have hcb := cesu8_char_len_bounds _ _ hc
    dsimp only at h
    split at h
    · injection h with h
      omega
    · split at h
      · injection h with h
        omega
      · injection h with h
        omega

theorem get_tail_go_le (bytes : List Nat) (h7 : bytes.length ≤ 7) :
    ∀ i n, get_tail_go bytes i = some n → n ≤ 6 ∧ n ≤ bytes.length := by
  intro i
  induction i with
  | zero =>
    intro n h
    rw [get_tail_go] at h
    exact get_tail_probe_le bytes 0 n h7 h
  | succ m ih =>
    intro n h
    rw [get_tail_go] at h
    rcases hp : get_tail_probe bytes (m + 1) with _ | v
    · rw [hp] at h
      exact ih n h
    · rw [hp] at h
      injection h with h
      subst h
      exact get_tail_probe_le bytes (m + 1) _ h7 hp

theorem get_tail_len_le (bytes : List Nat) (n : Nat)
    (h7 : bytes.length ≤ 7) (h : get_tail_len bytes = some n) :
    n ≤ 6 ∧ n ≤ bytes.length := by
  unfold get_tail_len at h
  rcases hl : bytes.getLast? with _ | b
  · rw [hl] at h
    injection h with h
    omega
  · have hpos : 1 ≤ bytes.length := by
      cases bytes with
      | nil => simp at hl
      | cons a l => simp
    rw [hl] at h
    dsimp only at h
    split at h
    · injection h with h
      omega
    · split at h
      · injection h with h
        omega
      · split at h
        · simp at h
        · simp at h
        · rename_i len hlen
          exact get_tail_go_le bytes h7 len n h

/-- C6 counterexample: on the 4-byte input consisting of a complete
first surrogate half followed by the first byte of the second half,
`to_string_and_tail` succeeds with an empty prefix and a 4-byte tail —
a tail length outside the claimed set \x7b0,1,2,3,6\x7d (the source's
own test asserts `tail.len() < 6`, so 6 never marks a split surrogate
pair either). -/
theorem c6_tail_length_four_exists :
    to_string_and_tail [0xED, 0xA0, 0x80, 0xED] =
      .ok ([], [0xED, 0xA0, 0x80, 0xED]) ∧
    ¬(([0xED, 0xA0, 0x80, 0xED] : List Nat).length = 0 ∨
      ([0xED, 0xA0, 0x80, 0xED] : List Nat).length = 1 ∨
      ([0xED, 0xA0, 0x80, 0xED] : List Nat).length = 2 ∨
      ([0xED, 0xA0, 0x80, 0xED] : List Nat).length = 3 ∨
      ([0xED, 0xA0, 0x80, 0xED] : List Nat).length = 6) :=
  ⟨rfl, by decide⟩

/-- C6 (amended): whenever the CESU-8 tail splitter to_string_and_tail
succeeds, it returns a prefix that decodes as valid UTF-8 text and a
partial trailing tail such that prefix concatenated with tail equals
the input, and the tail's length is at most 6 (lengths 4 and 5 occur
for partially transferred surrogate pairs; a fully split surrogate
pair leaves a 3-byte tail). -/
theorem c6_tail_split_round_trips (bytes s tail : List Nat)
    (h : to_string_and_tail bytes = .ok (s, tail)) :
    bytes.take (bytes.length - tail.length) ++ tail = bytes ∧
    tail.length ≤ 6 ∧
    string_from_cesu8 (bytes.take (bytes.length - tail.length)) = .ok s := by
  unfold to_string_and_tail at h
  dsimp only at h
  rcases hg : get_tail_len
      (bytes.drop (if bytes.length ≤ 7 then 0 else bytes.length - 7)) with
    _ | tl
  · rw [hg] at h
    simp at h
  · simp only [hg] at h
    have h7 : (bytes.drop
        (if bytes.length ≤ 7 then 0 else bytes.length - 7)).length ≤ 7 := by
      rw [List.length_drop]
      split <;> omega
    have hb := get_tail_len_le _ tl h7 hg
    rw [List.length_drop] at hb
    have htl : tl ≤ bytes.length := by
      rcases hb with ⟨hb1, hb2⟩
      split at hb2 <;> omega
    split at h
    · simp at h
    · rcases hs : string_from_cesu8 (bytes.take (bytes.length - tl)) with
        e | s2
      · simp only [hs] at h
        exact absurd h (by simp)
      · simp only [hs] at h
        injection h with h
        injection h with hs2 htail
        subst hs2
        have hlen : tail.length = tl := by
          rw [← htail, List.length_drop]
          omega
        rw [hlen]
        exact ⟨by rw [← htail]; exact List.take_append_drop _ bytes,
          by omega, hs⟩

/-- Witness for C6 at a concrete input ending in a partial two-byte
character. -/
theorem c6_tail_split_round_trips_witness :
    ([0x41, 0xC3] : List Nat).take (2 - 1) ++ [0xC3] = [0x41, 0xC3] ∧
    ([0xC3] : List Nat).length ≤ 6 ∧
    string_from_cesu8 (([0x41, 0xC3] : List Nat).take (2 - 1)) =
      .ok [0x41] :=
  c6_tail_split_round_trips [0x41, 0xC3] [0x41] [0xC3] rfl

theorem fetch_next_chunk_ok (h h2 : BLobHandle) (reply : LobChunk)
    (hf : h.fetch_next_chunk reply = .ok h2) :
    h2.data = h.data ++ reply.bytes ∧ h.isDataComplete = false := by
  unfold BLobHandle.fetch_next_chunk at hf
  split at hf
  · exact absurd hf (by simp)
  · split at hf
    · exact absurd hf (by simp)
    · dsimp only at hf
      split at hf
      · injection hf with hf
        subst hf
        rename_i hc _ _
        exact ⟨rfl, by simpa using hc⟩
      · exact absurd hf (by simp)

theorem blob_read_loop_spec (bufLen : Nat) :
    ∀ (server : List LobChunk) (h h2 : BLobHandle)
      (server2 : List LobChunk),
      blob_read_loop bufLen h server = .ok (h2, server2) →
      ∃ consumed : List LobChunk,
        server = consumed ++ server2 ∧
        h2.data = h.data ++ consumed.flatMap LobChunk.bytes ∧
        (h.isDataComplete = true → consumed = [] ∧ h2 = h) ∧
        (bufLen ≤ h.data.length → consumed = [] ∧ h2 = h) ∧
        (h2.isDataComplete = true ∨ bufLen ≤ h2.data.length) := by
  intro server
  induction server with
  | nil =>
    intro h h2 server2 hloop
    rw [blob_read_loop] at hloop
    split at hloop
    · exact absurd hloop (by simp)
    · rename_i hcond
      injection hloop with hloop
      injection hloop with hh hs
      subst hh hs
      refine ⟨[], by simp, by simp, fun _ => ⟨rfl, rfl⟩,
        fun _ => ⟨rfl, rfl⟩, ?_⟩
      rcases Decidable.em (h.isDataComplete = true) with hc | hc
      · exact Or.inl hc
      · refine Or.inr ?_
        have hfalse : h.isDataComplete = false := by
          cases hb : h.isDataComplete
          · rfl
          · exact absurd hb hc
        have hnlt : ¬h.data.length < bufLen := fun hlt =>
          hcond ⟨hfalse, hlt⟩
        omega
  | cons chunk rest ih =>
    intro h h2 server2 hloop
    rw [blob_read_loop] at hloop
    split at hloop
    · rename_i hcond
      rcases hf : h.fetch_next_chunk chunk with e | hmid
      · rw [hf] at hloop
        exact absurd hloop (by simp)
      · rw [hf] at hloop
        obtain ⟨hdata, _⟩ := fetch_next_chunk_ok h hmid chunk hf
        obtain ⟨consumed, hs, hd, _, _, hexit⟩ :=
          ih hmid h2 server2 hloop
        refine ⟨chunk :: consumed, by rw [List.cons_append, ← hs],
          ?_, ?_, ?_, hexit⟩
        · rw [hd, hdata]
          simp
        · intro hc
          exact absurd hc (by simp [hcond.1])
        · intro hb
          exact absurd hb (by omega)
    · rename_i hcond
      injection hloop with hloop
      injection hloop with hh hs
      subst hh hs
      refine ⟨[], by simp, by simp, fun _ => ⟨rfl, rfl⟩,
        fun _ => ⟨rfl, rfl⟩, ?_⟩
      rcases Decidable.em (h.isDataComplete = true) with hc | hc
      · exact Or.inl hc
      · refine Or.inr ?_
        have hfalse : h.isDataComplete = false := by
          cases hb : h.isDataComplete
          · rfl
          · exact absurd hb hc
        rcases Decidable.em (h.data.length < bufLen) with hlt | hlt
        · exact absurd ⟨hfalse, hlt⟩ hcond
        · omega

/-- C9: `read` pulls further chunks from the server only while the LOB
is incomplete and the buffered data is shorter than the destination
buffer, then copies min(destination length, buffered length) bytes into
the destination and removes exactly those bytes from the front of the
internal buffer; once the LOB is complete and the buffer is drained,
read returns 0 rather than an error, so repeated reads yield the LOB's
bytes exactly once and in order (the returned bytes followed by the
remaining buffer always reconstruct the buffered stream). -/
theorem c9_read_streams_buffered_bytes (h : BLobHandle) (bufLen : Nat)
    (server : List LobChunk) :
    (∀ (out : List Nat) (h2 : BLobHandle) (server2 : List LobChunk),
      h.read bufLen server = .ok ((out, h2), server2) →
      ∃ consumed : List LobChunk,
        server = consumed ++ server2 ∧
        (h.isDataComplete = true → consumed = []) ∧
        (bufLen ≤ h.data.length → consumed = []) ∧
        out.length =
          min bufLen (h.data ++ consumed.flatMap LobChunk.bytes).length ∧
        out ++ h2.data = h.data ++ consumed.flatMap LobChunk.bytes ∧
        (h.isDataComplete = true → h.data = [] → out = [] ∧ h2.data = [])) ∧
    (h.isDataComplete = true →
      h.read bufLen server =
        .ok ((h.data.take (min h.data.length bufLen),
          { h with data := h.data.drop (min h.data.length bufLen) }),
          server)) := by
  constructor
  · intro out h2 server2 hread
    unfold BLobHandle.read at hread
    rcases hloop : blob_read_loop bufLen h server with e | p
    · rw [hloop] at hread
      exact absurd hread (by simp)
    · rcases p with ⟨hmid, serverMid⟩
      rw [hloop] at hread
      dsimp only at hread
      injection hread with hread
      injection hread with hpair hs2
      injection hpair with hout hh2
      obtain ⟨consumed, hs, hd, hcomp, hbuf, _⟩ :=
        blob_read_loop_spec bufLen server h hmid serverMid hloop
      subst hs2
      refine ⟨consumed, hs, ?_, ?_, ?_, ?_, ?_⟩
      · intro hc
        exact (hcomp hc).1
      · intro hb
        exact (hbuf hb).1
      · rw [← hout, ← hd]
        simp only [List.length_take]
        omega
      · rw [← hout, ← hh2, ← hd]
        simp
      · intro hc hdata
        obtain ⟨hcons, hmide⟩ := hcomp hc
        subst hcons
        subst hmide
        constructor
        · rw [← hout]
          simp [hdata]
        · rw [← hh2]
          simp [hdata]
  · intro hc
    unfold BLobHandle.read
    have hloop : blob_read_loop bufLen h server = .ok (h, server) := by
      cases server with
      | nil =>
        rw [blob_read_loop]
        rw [if_neg (by simp [hc])]
      | cons chunk rest =>
        rw [blob_read_loop]
        rw [if_neg (by simp [hc])]
    rw [hloop]

/-- Witness for C9 at a concrete incomplete handle and one pending
chunk. -/
theorem c9_read_streams_buffered_bytes_witness :
    ∃ consumed : List LobChunk,
      ([⟨[12, 13, 14], true⟩] : List LobChunk) = consumed ++ [] ∧
      ((BLobHandle.new false 5 1 [10, 11]).isDataComplete = true →
        consumed = []) ∧
      (4 ≤ (BLobHandle.new false 5 1 [10, 11]).data.length →
        consumed = []) ∧
      ([10, 11, 12, 13] : List Nat).length =
        min 4 ((BLobHandle.new false 5 1 [10, 11]).data ++
          consumed.flatMap LobChunk.bytes).length ∧
      [10, 11, 12, 13] ++
          (⟨true, true, 5, 1, [14], 5, 5⟩ : BLobHandle).data =
        (BLobHandle.new false 5 1 [10, 11]).data ++
          consumed.flatMap LobChunk.bytes ∧
      ((BLobHandle.new false 5 1 [10, 11]).isDataComplete = true →
        (BLobHandle.new false 5 1 [10, 11]).data = [] →
        ([10, 11, 12, 13] : List Nat) = [] ∧
          (⟨true, true, 5, 1, [14], 5, 5⟩ : BLobHandle).data = []) :=
  (c9_read_streams_buffered_bytes (BLobHandle.new false 5 1 [10, 11]) 4
    [⟨[12, 13, 14], true⟩]).1 [10, 11, 12, 13]
    ⟨true, true, 5, 1, [14], 5, 5⟩ [] rfl

theorem tail_getElem (l : List α) (n : Nat) : l.tail[n]? = l[n + 1]? := by
  cases l <;> simp

theorem head_getElem (l : List α) : l.head? = l[0]? := by
  cases l <;> simp

theorem isFailure_success (k : Nat) :
    (ExecutionResult.success k).isFailure = false :=
  rfl

theorem isFailure_successNoInfo :
    ExecutionResult.successNoInfo.isFailure = false :=
  rfl

theorem isFailure_failure (oe : Option ServerError) :
    (ExecutionResult.failure oe).isFailure = true :=
  rfl

theorem mix_rows_fst_length (rows : List ExecutionResult)
    (errs : List ServerError) :
    (mix_rows rows errs).1.length = rows.length := by
  induction rows generalizing errs with
  | nil => simp [mix_rows]
  | cons r rs ih =>
    cases r with
    | success k => simp [mix_rows, ih]
    | successNoInfo => simp [mix_rows, ih]
    | failure oe => simp [mix_rows, ih]

theorem mix_rows_snd (rows : List ExecutionResult)
    (errs : List ServerError) :
    (mix_rows rows errs).2 =
      errs.drop (rows.countP ExecutionResult.isFailure) := by
  induction rows generalizing errs with
  | nil => simp [mix_rows]
  | cons r rs ih =>
    cases r with
    | success k =>
      rw [mix_rows]
      rw [List.countP_cons_of_neg _ _ (by simp [isFailure_success])]
      exact ih errs
      exact fun e h => ExecutionResult.noConfusion h
    | successNoInfo =>
      rw [mix_rows]
      rw [List.countP_cons_of_neg _ _ (by simp [isFailure_successNoInfo])]
      exact ih errs
      exact fun e h => ExecutionResult.noConfusion h
    | failure oe =>
      rw [mix_rows]
      rw [List.countP_cons_of_pos _ _ (isFailure_failure oe)]
      dsimp only
      rw [ih errs.tail]
      rw [← List.drop_one, List.drop_drop, Nat.add_comm]

theorem mix_rows_fst_getElem (rows : List ExecutionResult)
    (errs : List ServerError) (i : Nat) :
    (mix_rows rows errs).1[i]? =
      (rows[i]?).map (fun r =>
        if r.isFailure then
          .failure errs[(rows.take i).countP ExecutionResult.isFailure]?
        else r) := by
  induction rows generalizing errs i with
  | nil => simp [mix_rows]
  | cons r rs ih =>
    cases r with
    | failure oe =>
      rw [mix_rows]
      cases i with
      | zero =>
        simp [isFailure_failure, head_getElem]
      | succ m =>
        dsimp only
        rw [List.getElem?_cons_succ, ih errs.tail m,
          List.getElem?_cons_succ]
        rcases hr : rs[m]? with _ | rm
        · rfl
        · show some _ = some _
          rw [List.take_succ_cons,
            List.countP_cons_of_pos _ _ (isFailure_failure oe)]
          rw [tail_getElem]
    | success k =>
      rw [mix_rows]
      · cases i with
        | zero => simp [isFailure_success]
        | succ m =>
          dsimp only
          rw [List.getElem?_cons_succ, ih errs m, List.getElem?_cons_succ]
          rw [List.take_succ_cons,
            List.countP_cons_of_neg _ _ (by simp [isFailure_success])]
      · exact fun e h => ExecutionResult.noConfusion h
    | successNoInfo =>
      rw [mix_rows]
      · cases i with
        | zero => simp [isFailure_successNoInfo]
        | succ m =>
          dsimp only
          rw [List.getElem?_cons_succ, ih errs m, List.getElem?_cons_succ]
          rw [List.take_succ_cons,
            List.countP_cons_of_neg _ _ (by simp [isFailure_successNoInfo])]
      · exact fun e h => ExecutionResult.noConfusion h

theorem mix_errors_getElem_lt (rows : List ExecutionResult)
    (errs : List ServerError) (i : Nat) (hi : i < rows.length) :
    (mix_errors rows errs)[i]? =
      (rows[i]?).map (fun r =>
        if r.isFailure then
          .failure errs[(rows.take i).countP ExecutionResult.isFailure]?
        else r) := by
  unfold mix_errors
  rw [List.getElem?_append,
    if_pos (by rw [mix_rows_fst_length]; exact hi)]
  exact mix_rows_fst_getElem rows errs i

theorem mix_errors_drop (rows : List ExecutionResult)
    (errs : List ServerError) :
    (mix_errors rows errs).drop rows.length =
      (errs.drop (rows.countP ExecutionResult.isFailure)).map
        (fun e => .failure (some e)) := by
  unfold mix_errors
  rw [show rows.length = (mix_rows rows errs).1.length from
    (mix_rows_fst_length rows errs).symm]
  rw [List.drop_left, mix_rows_snd]

theorem digest_parts_shape (rows : List ExecutionResult) :
    ∀ (xs ys : List Part) (c : ConnectionCore)
      (o : Option (List ExecutionResult)),
      (∀ p ∈ xs, p.isTf = false ∧ p.isExec = false) →
      (∀ p ∈ ys, p.isTf = false ∧ p.isExec = false) →
      ∃ c2, digest_parts c o (xs ++ .executionResult rows :: ys) =
        (c2, .ok (some rows)) := by
  have harmless : ∀ (ys : List Part) (c : ConnectionCore)
      (o : Option (List ExecutionResult)),
      (∀ p ∈ ys, p.isTf = false ∧ p.isExec = false) →
      ∃ c2, digest_parts c o ys = (c2, .ok o) := by
    intro ys
    induction ys with
    | nil => intro c o _; exact ⟨c, rfl⟩
    | cons p rest ih =>
      intro c o hys
      have hrest : ∀ q ∈ rest, q.isTf = false ∧ q.isExec = false :=
        fun q hq => hys q (List.mem_cons_of_mem p hq)
      cases p with
      | error es => simpa [digest_parts] using ih c o hrest
      | statementContext ctx =>
        simpa [digest_parts] using
          ih (c.evaluate_statement_context ctx) o hrest
      | transactionFlags tf =>
        have := (hys _ (List.mem_cons_self _ _)).1
        simp [Part.isTf] at this
      | executionResult v =>
        have := (hys _ (List.mem_cons_self _ _)).2
        simp [Part.isExec] at this
      | other k => simpa [digest_parts] using ih c o hrest
  intro xs
  induction xs with
  | nil =>
    intro ys c o _ hys
    rw [List.nil_append, digest_parts]
    exact harmless ys c (some rows) hys
  | cons p rest ih =>
    intro ys c o hxs hys
    have hrest : ∀ q ∈ rest, q.isTf = false ∧ q.isExec = false :=
      fun q hq => hxs q (List.mem_cons_of_mem p hq)
    cases p with
    | error es =>
      simpa [digest_parts] using ih ys c o hrest hys
    | statementContext ctx =>
      simpa [digest_parts] using
        ih ys (c.evaluate_statement_context ctx) o hrest hys
    | transactionFlags tf =>
      have := (hxs _ (List.mem_cons_self _ _)).1
      simp [Part.isTf] at this
    | executionResult v =>
      have := (hxs _ (List.mem_cons_self _ _)).2
      simp [Part.isExec] at this
    | other k =>
      simpa [digest_parts] using ih ys c o hrest hys

/-- C2: when a reply contains an Error part with at least one
non-warning server error together with an ExecutionResult part, the
error classifier returns an ExecutionResults error in which the i-th
Failure placeholder (in row order) carries the i-th error of the list
(each Failure consumes the next error, in order), every non-Failure
entry is left unchanged at its position, and each error left over after
all Failure placeholders are filled is appended at the end as an
additional Failure entry. -/
theorem c2_execution_results_mix_errors (c : ConnectionCore)
    (parts : List Part) (serverErrors errs : List ServerError)
    (xs ys : List Part) (rows : List ExecutionResult)
    (hrm : remove_first_error parts =
      some (serverErrors, xs ++ .executionResult rows :: ys))
    (hxs : ∀ p ∈ xs, p.isTf = false ∧ p.isExec = false)
    (hys : ∀ p ∈ ys, p.isTf = false ∧ p.isExec = false)
    (herrs : (serverErrors.partition
      (fun se => se.severity = Severity.warning)).2 = errs)
    (hne : errs ≠ []) :
    (c.handle_db_error parts).2 =
      .error (.hdb (.executionResults (mix_errors rows errs))) ∧
    (∀ i, i < rows.length →
      (mix_errors rows errs)[i]? =
        (rows[i]?).map (fun r =>
          if r.isFailure then
            .failure errs[(rows.take i).countP ExecutionResult.isFailure]?
          else r)) ∧
    (mix_errors rows errs).drop rows.length =
      (errs.drop (rows.countP ExecutionResult.isFailure)).map
        (fun e => .failure (some e)) := by
  refine ⟨?_, fun i hi => mix_errors_getElem_lt rows errs i hi,
    mix_errors_drop rows errs⟩
  unfold ConnectionCore.handle_db_error
  rw [hrm]
  dsimp only
  rw [herrs]
  rw [if_neg hne]
  obtain ⟨c2, hdig⟩ := digest_parts_shape rows xs ys
    { c with warnings := (serverErrors.partition
        (fun se => se.severity = Severity.warning)).1 } none hxs hys
  rw [hdig]

/-- Witness for C2 at a concrete reply: two errors, one warning, and
five execution results with three Failure placeholders. -/
theorem c2_execution_results_mix_errors_witness :
    ((ConnectionCore.initial.handle_db_error
        [.error [⟨1, 0, .error, "", "e1"⟩, ⟨2, 0, .warning, "", "w1"⟩,
            ⟨3, 0, .error, "", "e2"⟩],
          .executionResult
            [.success 1, .failure none, .successNoInfo, .failure none,
              .failure none]]).2 =
      .error (.hdb (.executionResults
        (mix_errors
          [.success 1, .failure none, .successNoInfo, .failure none,
            .failure none]
          [⟨1, 0, .error, "", "e1"⟩, ⟨3, 0, .error, "", "e2"⟩])))) ∧
    mix_errors
        [.success 1, .failure none, .successNoInfo, .failure none,
          .failure none]
        [⟨1, 0, .error, "", "e1"⟩, ⟨3, 0, .error, "", "e2"⟩] =
      [.success 1, .failure (some ⟨1, 0, .error, "", "e1"⟩),
        .successNoInfo, .failure (some ⟨3, 0, .error, "", "e2"⟩),
        .failure none] := by
  refine ⟨(c2_execution_results_mix_errors ConnectionCore.initial
    [.error [⟨1, 0, .error, "", "e1"⟩, ⟨2, 0, .warning, "", "w1"⟩,
        ⟨3, 0, .error, "", "e2"⟩],
      .executionResult
        [.success 1, .failure none, .successNoInfo, .failure none,
          .failure none]]
    [⟨1, 0, .error, "", "e1"⟩, ⟨2, 0, .warning, "", "w1"⟩,
      ⟨3, 0, .error, "", "e2"⟩]
    [⟨1, 0, .error, "", "e1"⟩, ⟨3, 0, .error, "", "e2"⟩]
    [] []
    [.success 1, .failure none, .successNoInfo, .failure none,
      .failure none]
    (by decide) (by decide) (by decide) (by decide) (by decide)).1,
    by decide⟩

end Hdb
